import Mathlib

/-!
Verification of the HearHere repository's transport-synchronization and
zone-reconciliation core against its natural-language specification.

The definitions below are a shallow embedding of the TypeScript source:

* `TimingSync` and its operations embed the class `TimingSync` of the
  timestamp-based transport sync module (fields `isInitialized`,
  `onBpmChangeCallback`, `currentState`, and methods `syncFromRemote`,
  `syncToTransport`, `setBPM`, `play`, `pause`, `initialize`, `destroy`).
  Wall-clock timestamps and engine positions are rationals; `Date.now()`
  becomes an explicit `now` argument.  The Tone.js transport is embedded
  as `Transport` (tempo, position in seconds, and run status), together
  with the list of engine calls (`EngineCmd`) an operation issues.
  JavaScript truthiness of the `startTime : number | null` field is
  embedded by `truthyTime`: both `null` and `0` are falsy.
* The Automerge document hook (`addShape`, `updateShapeSound`,
  `deleteShape`, `clearAllShapes` of `useAutomergeDoc.ts`) is embedded
  over an association-list document model.
* The `DrawMapZones` reconciliation (the `L.Draw.Event.CREATED` handler
  and the sync-shapes effect with its processed/pending bookkeeping) is
  embedded as pure transitions on a `ReconcilerState`.

Console logging and React rendering are pure side effects with no state
and are not modelled.
-/

/-- Engine calls issued to the Tone.js transport by an operation, in
order: `transport.bpm.value = b`, `transport.seconds = x`,
`transport.start()`, `transport.stop()`. -/
inductive EngineCmd where
  | setBpm (b : ℚ)
  | setSeconds (x : ℚ)
  | start
  | stop
deriving DecidableEq

/-- Run status of the Tone.js transport (`transport.state`). -/
inductive EngineStatus where
  | started
  | stopped
  | paused
deriving DecidableEq

/-- The playback-engine adapter: tempo, position in seconds, and status.
`start` and `stop` switch the status; position is read and written only
through `seconds` (the `getPositionSeconds`/`setPositionSeconds` contract). -/
structure Transport where
  bpm : ℚ
  seconds : ℚ
  status : EngineStatus
deriving DecidableEq

/-- The shared transport state (`TransportSyncState` in the source):
`startTime` is a wall-clock timestamp in milliseconds or `null`. -/
structure TransportSyncState where
  startTime : Option ℚ
  bpm : ℚ
  isPlaying : Bool
deriving DecidableEq

/-- The `TimingSync` instance state: the `isInitialized` flag, whether an
`onBpmChangeCallback` is registered, and the current transport state. -/
structure TimingSync where
  isInitialized : Bool
  hasBpmCallback : Bool
  currentState : TransportSyncState
deriving DecidableEq

/-- The state of a freshly constructed `TimingSync` instance:
`startTime: null, bpm: 120, isPlaying: false`, not initialized, no
callback registered. -/
def initialTimingSync : TimingSync :=
  { isInitialized := false
    hasBpmCallback := false
    currentState := { startTime := none, bpm := 120, isPlaying := false } }

/-- JavaScript truthiness of a `number | null` timestamp: `null` and `0`
are falsy, every other number is truthy (`NaN` has no rational
counterpart). -/
def truthyTime : Option ℚ → Bool
  | none => false
  | some t => decide (t ≠ 0)

/-- Result of `syncFromRemote`: updated instance, updated engine, the
engine calls issued, and the rounded bpm delivered to the registered
`onBpmChange` callback (if any). -/
structure RemoteRes where
  sync : TimingSync
  transport : Transport
  cmds : List EngineCmd
  notified : Option ℤ
deriving DecidableEq

/-- Embedding of `TimingSync.syncFromRemote(state)`.  Mirrors the source:
early return when not initialized; copy `state` into `currentState`;
notify the bpm callback when `|prevBpm - state.bpm| > 0.1`; always write
`state.bpm` to the engine; then, when `state.isPlaying && state.startTime`
(JS truthiness), set the engine position to `(now - startTime)/1000` and
start the engine unless already started, otherwise stop the engine unless
already stopped. -/
def syncFromRemote (now : ℚ) (state : TransportSyncState) (ts : TimingSync)
    (tr : Transport) : RemoteRes :=
  if ts.isInitialized = false then ⟨ts, tr, [], none⟩ else
  let prevBpm := ts.currentState.bpm
  let ts1 : TimingSync := { ts with currentState := state }
  let notified : Option ℤ :=
    if |prevBpm - state.bpm| > 1/10 then
      (if ts.hasBpmCallback then some (round state.bpm) else none)
    else none
  let tr1 : Transport := { tr with bpm := state.bpm }
  if state.isPlaying && truthyTime state.startTime then
    let t := state.startTime.getD 0
    let pos := (now - t) / 1000
    let tr2 : Transport := { tr1 with seconds := pos }
    if tr2.status = EngineStatus.started then
      ⟨ts1, tr2, [EngineCmd.setBpm state.bpm, EngineCmd.setSeconds pos], notified⟩
    else
      ⟨ts1, { tr2 with status := EngineStatus.started },
        [EngineCmd.setBpm state.bpm, EngineCmd.setSeconds pos, EngineCmd.start], notified⟩
  else
    if tr1.status = EngineStatus.stopped then
      ⟨ts1, tr1, [EngineCmd.setBpm state.bpm], notified⟩
    else
      ⟨ts1, { tr1 with status := EngineStatus.stopped },
        [EngineCmd.setBpm state.bpm, EngineCmd.stop], notified⟩

/-- Embedding of the private corrector `TimingSync.syncToTransport()`.
Early return when not initialized, not playing, or `startTime` falsy;
otherwise compute `expectedPosition = (now - startTime)/1000` and snap
the engine position to it exactly when the absolute drift exceeds 0.05
seconds. -/
def syncToTransport (now : ℚ) (ts : TimingSync) (tr : Transport) :
    Transport × List EngineCmd :=
  if ts.isInitialized = false ∨ ts.currentState.isPlaying = false ∨
      truthyTime ts.currentState.startTime = false then
    (tr, [])
  else
    let t := ts.currentState.startTime.getD 0
    let expectedPosition := (now - t) / 1000
    let drift := |tr.seconds - expectedPosition|
    if drift > 1/20 then
      ({ tr with seconds := expectedPosition }, [EngineCmd.setSeconds expectedPosition])
    else (tr, [])

/-- Result of a local mutator (`setBPM`, `play`, `pause`): the state
returned for publication, the updated instance, the updated engine, and
the engine calls issued. -/
structure OpResult where
  returned : TransportSyncState
  sync : TimingSync
  transport : Transport
  cmds : List EngineCmd
deriving DecidableEq

/-- Embedding of `TimingSync.setBPM(bpm)`: when not initialized, return
the current state unchanged; otherwise store `bpm` in `currentState`,
write it to the engine, and return a copy of the new state.  The source
performs no validation or clamping of `bpm`. -/
def setBPM (bpm : ℚ) (ts : TimingSync) (tr : Transport) : OpResult :=
  if ts.isInitialized = false then ⟨ts.currentState, ts, tr, []⟩ else
  let st : TransportSyncState := { ts.currentState with bpm := bpm }
  ⟨st, { ts with currentState := st }, { tr with bpm := bpm }, [EngineCmd.setBpm bpm]⟩

/-- Embedding of `TimingSync.play()`: when not initialized, return the
current state unchanged; when already playing, return a copy of the
current state without touching `startTime`; otherwise set
`startTime = now`, `isPlaying = true` and start the engine. -/
def play (now : ℚ) (ts : TimingSync) (tr : Transport) : OpResult :=
  if ts.isInitialized = false then ⟨ts.currentState, ts, tr, []⟩ else
  if ts.currentState.isPlaying then ⟨ts.currentState, ts, tr, []⟩ else
  let st : TransportSyncState :=
    { startTime := some now, bpm := ts.currentState.bpm, isPlaying := true }
  ⟨st, { ts with currentState := st }, { tr with status := EngineStatus.started },
    [EngineCmd.start]⟩

/-- Embedding of `TimingSync.pause()`: when not initialized, return the
current state unchanged; otherwise set `isPlaying = false`,
`startTime = null` and stop the engine. -/
def pause (ts : TimingSync) (tr : Transport) : OpResult :=
  if ts.isInitialized = false then ⟨ts.currentState, ts, tr, []⟩ else
  let st : TransportSyncState :=
    { ts.currentState with isPlaying := false, startTime := none }
  ⟨st, { ts with currentState := st }, { tr with status := EngineStatus.stopped },
    [EngineCmd.stop]⟩

/-- Embedding of `TimingSync.initialize(bpm)` (named `initTiming` here):
no-op when already initialized, otherwise store `bpm`, set the engine
tempo and mark the instance initialized.  The sync-loop timer carries no
transport state and is not modelled. -/
def initTiming (bpm : ℚ) (ts : TimingSync) (tr : Transport) : TimingSync × Transport :=
  if ts.isInitialized then (ts, tr) else
  ({ ts with isInitialized := true
             currentState := { ts.currentState with bpm := bpm } },
   { tr with bpm := bpm })

/-- Embedding of `TimingSync.destroy()`: cancel the timer (not modelled),
mark the instance uninitialized and clear the callback.  `currentState`
is left untouched. -/
def destroy (ts : TimingSync) : TimingSync :=
  { ts with isInitialized := false, hasBpmCallback := false }

/-- The transport-state invariant of the spec:
`isPlaying === true` iff `startTime !== null`. -/
def transportInv (st : TransportSyncState) : Prop :=
  st.isPlaying = true ↔ st.startTime ≠ none

instance (st : TransportSyncState) : Decidable (transportInv st) := by
  unfold transportInv; infer_instance

/-! Concrete states used by counterexamples and witnesses. -/

/-- An initialized, idle `TimingSync` instance. -/
def ceSyncInit : TimingSync :=
  { isInitialized := true
    hasBpmCallback := false
    currentState := { startTime := none, bpm := 120, isPlaying := false } }

/-- An initialized instance whose shared state says playing with
`startTime = 0` (a value `syncFromRemote` can install from a remote
snapshot). -/
def cePlayingZero : TimingSync :=
  { isInitialized := true
    hasBpmCallback := false
    currentState := { startTime := some 0, bpm := 120, isPlaying := true } }

/-- A stopped engine at position 0. -/
def ceTrStopped : Transport := { bpm := 120, seconds := 0, status := EngineStatus.stopped }

/-- A running engine whose reported position is 10 s. -/
def ceTrDrift : Transport := { bpm := 120, seconds := 10, status := EngineStatus.started }

/-- C1 counterexample: with the remote state `{startTime: 0, isPlaying: true}`
(`startTime` non-null) and local clock `now = 1200`, the claim says the engine
position is set to `(1200 - 0)/1000` and the engine is started; the code's JS
truthiness test `state.isPlaying && state.startTime` treats `0` as falsy, so it
takes the stop branch instead: the engine stays stopped at position `0`. -/
theorem syncFromRemote_nonnull_claim_ce :
    ceSyncInit.isInitialized = true ∧
    (⟨some 0, 120, true⟩ : TransportSyncState).isPlaying = true ∧
    (⟨some 0, 120, true⟩ : TransportSyncState).startTime ≠ none ∧
    (syncFromRemote 1200 ⟨some 0, 120, true⟩ ceSyncInit ceTrStopped).transport.status =
      EngineStatus.stopped ∧
    (syncFromRemote 1200 ⟨some 0, 120, true⟩ ceSyncInit ceTrStopped).transport.seconds = 0 ∧
    (0 : ℚ) ≠ (1200 - 0) / 1000 := by
  refine ⟨rfl, rfl, by simp, ?_, ?_, by norm_num⟩ <;>
    simp [syncFromRemote, ceSyncInit, ceTrStopped, truthyTime]

/-- C1 (amended): on an initialized instance, `syncFromRemote` always applies
`state.bpm` to the engine tempo; when `state.isPlaying` and `state.startTime`
is non-null and nonzero it sets the engine position to
`(now - startTime)/1000` and issues `start` exactly when the engine was not
already running; when `state.isPlaying` is false, or `startTime` is null or
zero, it leaves the position alone and issues `stop` exactly when the engine
was not already stopped. -/
theorem syncFromRemote_spec (now : ℚ) (state : TransportSyncState) (ts : TimingSync)
    (tr : Transport) (hinit : ts.isInitialized = true) :
    (syncFromRemote now state ts tr).transport.bpm = state.bpm ∧
    (∀ t : ℚ, state.startTime = some t → t ≠ 0 → state.isPlaying = true →
      (syncFromRemote now state ts tr).transport.seconds = (now - t) / 1000 ∧
      (syncFromRemote now state ts tr).transport.status = EngineStatus.started ∧
      (EngineCmd.start ∈ (syncFromRemote now state ts tr).cmds ↔
        tr.status ≠ EngineStatus.started)) ∧
    ((state.isPlaying = false ∨ state.startTime = none ∨ state.startTime = some 0) →
      (syncFromRemote now state ts tr).transport.status = EngineStatus.stopped ∧
      (syncFromRemote now state ts tr).transport.seconds = tr.seconds ∧
      (EngineCmd.stop ∈ (syncFromRemote now state ts tr).cmds ↔
        tr.status ≠ EngineStatus.stopped)) := by
  have hne : ¬ (ts.isInitialized = false) := by simp [hinit]
  unfold syncFromRemote
  rw [if_neg hne]
  dsimp only
  refine ⟨?_, ?_, ?_⟩
  · split_ifs <;> rfl
  · intro t hst ht hp
    have htr : (state.isPlaying && truthyTime state.startTime) = true := by
      simp [hp, hst, truthyTime, ht]
    rw [if_pos htr]
    by_cases hs : tr.status = EngineStatus.started
    · rw [if_pos hs]; exact ⟨by simp [hst], hs, by simp [hs]⟩
    · rw [if_neg hs]; exact ⟨by simp [hst], rfl, by simp [hs]⟩
  · intro hcase
    have hf : ¬ ((state.isPlaying && truthyTime state.startTime) = true) := by
      rcases hcase with h | h | h <;> simp [h, truthyTime]
    rw [if_neg hf]
    by_cases hs : tr.status = EngineStatus.stopped
    · rw [if_pos hs]; exact ⟨hs, rfl, by simp [hs]⟩
    · rw [if_neg hs]; exact ⟨rfl, rfl, by simp [hs]⟩

/-- C1 witness: the spec's two-peer handoff scenario.  Peer B applies the
remote state `{startTime: 1000, isPlaying: true, bpm: 120}` at local clock
`now = 1200`; the amended theorem instantiates to an engine position of
`(1200 - 1000)/1000` seconds. -/
theorem syncFromRemote_spec_witness :
    ceSyncInit.isInitialized = true ∧
    ((syncFromRemote 1200 ⟨some 1000, 120, true⟩ ceSyncInit ceTrStopped).transport.bpm =
        (⟨some 1000, 120, true⟩ : TransportSyncState).bpm ∧
      (∀ t : ℚ, (⟨some 1000, 120, true⟩ : TransportSyncState).startTime = some t → t ≠ 0 →
        (⟨some 1000, 120, true⟩ : TransportSyncState).isPlaying = true →
        (syncFromRemote 1200 ⟨some 1000, 120, true⟩ ceSyncInit ceTrStopped).transport.seconds =
          (1200 - t) / 1000 ∧
        (syncFromRemote 1200 ⟨some 1000, 120, true⟩ ceSyncInit ceTrStopped).transport.status =
          EngineStatus.started ∧
        (EngineCmd.start ∈ (syncFromRemote 1200 ⟨some 1000, 120, true⟩ ceSyncInit ceTrStopped).cmds ↔
          ceTrStopped.status ≠ EngineStatus.started)) ∧
      (((⟨some 1000, 120, true⟩ : TransportSyncState).isPlaying = false ∨
          (⟨some 1000, 120, true⟩ : TransportSyncState).startTime = none ∨
          (⟨some 1000, 120, true⟩ : TransportSyncState).startTime = some 0) →
        (syncFromRemote 1200 ⟨some 1000, 120, true⟩ ceSyncInit ceTrStopped).transport.status =
          EngineStatus.stopped ∧
        (syncFromRemote 1200 ⟨some 1000, 120, true⟩ ceSyncInit ceTrStopped).transport.seconds =
          ceTrStopped.seconds ∧
        (EngineCmd.stop ∈ (syncFromRemote 1200 ⟨some 1000, 120, true⟩ ceSyncInit ceTrStopped).cmds ↔
          ceTrStopped.status ≠ EngineStatus.stopped))) :=
  ⟨rfl, syncFromRemote_spec 1200 ⟨some 1000, 120, true⟩ ceSyncInit ceTrStopped rfl⟩

/-- C2 counterexample: an initialized, playing state with `startTime = 0`
(non-null).  The engine reports 10 s while the expected position is
`(1000 - 0)/1000 = 1` s, a drift far above 0.05 s, yet the corrector's JS
truthiness guard `!this.currentState.startTime` treats `0` as falsy and
returns without mutating the engine position — refuting the claimed
"mutates iff drift > 0.05" for every non-null `startTime`. -/
theorem syncToTransport_nonnull_claim_ce :
    cePlayingZero.isInitialized = true ∧
    cePlayingZero.currentState.isPlaying = true ∧
    cePlayingZero.currentState.startTime = some 0 ∧
    |ceTrDrift.seconds - (1000 - 0) / 1000| > 1/20 ∧
    (syncToTransport 1000 cePlayingZero ceTrDrift).fst = ceTrDrift ∧
    (syncToTransport 1000 cePlayingZero ceTrDrift).snd = [] := by
  refine ⟨rfl, rfl, rfl, ?_, ?_, ?_⟩
  · rw [show ceTrDrift.seconds = 10 from rfl,
      show ((1000:ℚ) - 0) / 1000 = 1 from by norm_num,
      show |(10:ℚ) - 1| = 9 from by
        rw [abs_of_nonneg (by norm_num : (0:ℚ) ≤ 10 - 1)]; norm_num]
    norm_num
  · simp [syncToTransport, cePlayingZero, truthyTime]
  · simp [syncToTransport, cePlayingZero, truthyTime]

/-- C2 (amended): while initialized and playing with a non-null, nonzero
`startTime = t`, the corrector snaps the engine position to
`(now - t)/1000` exactly when the absolute difference between the
engine-reported position and that expected position exceeds 0.05 s; the
engine position changes iff that threshold is exceeded; in particular a
drift of exactly 0.051 s fires the correction and a drift of exactly
0.049 s does not. -/
theorem syncToTransport_spec (now t : ℚ) (ts : TimingSync) (tr : Transport)
    (hinit : ts.isInitialized = true) (hplay : ts.currentState.isPlaying = true)
    (hst : ts.currentState.startTime = some t) (ht : t ≠ 0) :
    (|tr.seconds - (now - t) / 1000| > 1/20 →
      (syncToTransport now ts tr).fst = { tr with seconds := (now - t) / 1000 } ∧
      (syncToTransport now ts tr).snd = [EngineCmd.setSeconds ((now - t) / 1000)]) ∧
    (¬ (|tr.seconds - (now - t) / 1000| > 1/20) →
      (syncToTransport now ts tr).fst = tr ∧ (syncToTransport now ts tr).snd = []) ∧
    ((syncToTransport now ts tr).fst.seconds ≠ tr.seconds ↔
      |tr.seconds - (now - t) / 1000| > 1/20) ∧
    (|tr.seconds - (now - t) / 1000| = 51/1000 →
      (syncToTransport now ts tr).fst.seconds = (now - t) / 1000) ∧
    (|tr.seconds - (now - t) / 1000| = 49/1000 →
      (syncToTransport now ts tr).fst = tr) := by
  have hno : ¬ (ts.isInitialized = false ∨ ts.currentState.isPlaying = false ∨
      truthyTime ts.currentState.startTime = false) := by
    simp [hinit, hplay, hst, truthyTime, ht]
  unfold syncToTransport
  rw [if_neg hno]
  dsimp only
  rw [hst]
  simp only [Option.getD_some]
  by_cases hd : |tr.seconds - (now - t) / 1000| > 1/20
  · rw [if_pos hd]
    have hne2 : (now - t) / 1000 ≠ tr.seconds := by
      intro hcontra
      rw [hcontra, sub_self, abs_zero] at hd
      exact absurd hd (by norm_num)
    refine ⟨fun _ => ⟨rfl, rfl⟩, fun hcon => absurd hd hcon, ?_, fun _ => rfl, ?_⟩
    · exact ⟨fun _ => hd, fun _ => hne2⟩
    · intro heq
      rw [heq] at hd
      exact absurd hd (by norm_num)
  · rw [if_neg hd]
    refine ⟨fun hcon => absurd hcon hd, fun _ => ⟨rfl, rfl⟩,
      iff_of_false (fun hcontra => hcontra rfl) hd, ?_, fun _ => rfl⟩
    intro heq
    rw [heq] at hd
    exact absurd (by norm_num : (51:ℚ)/1000 > 1/20) hd

/-- An initialized instance playing since timestamp 1000. -/
def ceSyncPlaying : TimingSync :=
  { isInitialized := true
    hasBpmCallback := false
    currentState := { startTime := some 1000, bpm := 120, isPlaying := true } }

/-- C2 witness: the amended corrector theorem instantiated at an
initialized playing state with `startTime = 1000` and a running engine,
checked at local clock `now = 1000`. -/
theorem syncToTransport_spec_witness :
    ceSyncPlaying.isInitialized = true ∧
    ceSyncPlaying.currentState.isPlaying = true ∧
    ceSyncPlaying.currentState.startTime = some 1000 ∧
    (1000 : ℚ) ≠ 0 ∧
    ((|ceTrDrift.seconds - (1000 - 1000) / 1000| > 1/20 →
      (syncToTransport 1000 ceSyncPlaying ceTrDrift).fst =
        { ceTrDrift with seconds := (1000 - 1000) / 1000 } ∧
      (syncToTransport 1000 ceSyncPlaying ceTrDrift).snd =
        [EngineCmd.setSeconds ((1000 - 1000) / 1000)]) ∧
    (¬ (|ceTrDrift.seconds - (1000 - 1000) / 1000| > 1/20) →
      (syncToTransport 1000 ceSyncPlaying ceTrDrift).fst = ceTrDrift ∧
      (syncToTransport 1000 ceSyncPlaying ceTrDrift).snd = []) ∧
    ((syncToTransport 1000 ceSyncPlaying ceTrDrift).fst.seconds ≠ ceTrDrift.seconds ↔
      |ceTrDrift.seconds - (1000 - 1000) / 1000| > 1/20) ∧
    (|ceTrDrift.seconds - (1000 - 1000) / 1000| = 51/1000 →
      (syncToTransport 1000 ceSyncPlaying ceTrDrift).fst.seconds = (1000 - 1000) / 1000) ∧
    (|ceTrDrift.seconds - (1000 - 1000) / 1000| = 49/1000 →
      (syncToTransport 1000 ceSyncPlaying ceTrDrift).fst = ceTrDrift)) :=
  ⟨rfl, rfl, rfl, by decide,
    syncToTransport_spec 1000 1000 ceSyncPlaying ceTrDrift rfl rfl rfl (by decide)⟩

/-- C5: `play` is idempotent.  On an initialized instance, a second
consecutive `play` (no intervening `pause`) returns exactly the state
returned by the first call; in particular the `startTime` of an ongoing
playback is never reset. -/
theorem play_idempotent (now1 now2 : ℚ) (ts : TimingSync) (tr : Transport)
    (hinit : ts.isInitialized = true) :
    (play now2 (play now1 ts tr).sync (play now1 ts tr).transport).returned.startTime =
      (play now1 ts tr).returned.startTime ∧
    (play now2 (play now1 ts tr).sync (play now1 ts tr).transport).returned =
      (play now1 ts tr).returned := by
  have hne : ¬ (ts.isInitialized = false) := by simp [hinit]
  by_cases hp : ts.currentState.isPlaying
  · have h1 : play now1 ts tr = ⟨ts.currentState, ts, tr, []⟩ := by
      unfold play; rw [if_neg hne, if_pos hp]
    rw [h1]
    have h2 : play now2 ts tr = ⟨ts.currentState, ts, tr, []⟩ := by
      unfold play; rw [if_neg hne, if_pos hp]
    rw [h2]
    exact ⟨rfl, rfl⟩
  · have h1 : play now1 ts tr =
        ⟨{ startTime := some now1, bpm := ts.currentState.bpm, isPlaying := true },
          { ts with currentState :=
            { startTime := some now1, bpm := ts.currentState.bpm, isPlaying := true } },
          { tr with status := EngineStatus.started }, [EngineCmd.start]⟩ := by
      unfold play; rw [if_neg hne, if_neg hp]
    rw [h1]
    unfold play
    rw [if_neg (by simpa using hne)]
    exact ⟨rfl, rfl⟩

/-- C5 witness: `play` at clock 5 and again at clock 9 on an initialized
idle instance; both calls return `startTime = some 5`. -/
theorem play_idempotent_witness :
    ceSyncInit.isInitialized = true ∧
    ((play 9 (play 5 ceSyncInit ceTrStopped).sync (play 5 ceSyncInit ceTrStopped).transport).returned.startTime =
      (play 5 ceSyncInit ceTrStopped).returned.startTime ∧
    (play 9 (play 5 ceSyncInit ceTrStopped).sync (play 5 ceSyncInit ceTrStopped).transport).returned =
      (play 5 ceSyncInit ceTrStopped).returned) :=
  ⟨rfl, play_idempotent 5 9 ceSyncInit ceTrStopped rfl⟩

/-- The reachable trace refuting unconditional pause: initialize, play at
clock 1000, tear down (`destroy`), then call `pause`. -/
def pauseTrace : OpResult :=
  pause
    (destroy (play 1000 (initTiming 120 initialTimingSync ceTrStopped).fst
      (initTiming 120 initialTimingSync ceTrStopped).snd).sync)
    (play 1000 (initTiming 120 initialTimingSync ceTrStopped).fst
      (initTiming 120 initialTimingSync ceTrStopped).snd).transport

/-- C6 counterexample: `pause()` is guarded by `isInitialized`, so after
teardown it returns the last known state unchanged.  Along the reachable
trace initialize → play(1000) → destroy → pause, the state returned by
`pause` still has `isPlaying = true` and `startTime = 1000`, refuting
"startTime === null and isPlaying === false, unconditionally, from any
prior state including after teardown". -/
theorem pause_unconditional_ce :
    pauseTrace.returned.isPlaying = true ∧
    pauseTrace.returned.startTime = some 1000 ∧
    pauseTrace.sync.currentState.isPlaying = true :=
  ⟨rfl, rfl, rfl⟩

/-- C6 (amended): on an initialized instance, `pause()` unconditionally
returns (and stores) a state with `startTime = null` and
`isPlaying = false`, and stops the engine; on an uninitialized instance it
returns the current state unchanged. -/
theorem pause_spec (ts : TimingSync) (tr : Transport) (hinit : ts.isInitialized = true) :
    (pause ts tr).returned.startTime = none ∧
    (pause ts tr).returned.isPlaying = false ∧
    (pause ts tr).sync.currentState.startTime = none ∧
    (pause ts tr).sync.currentState.isPlaying = false ∧
    (pause ts tr).transport.status = EngineStatus.stopped := by
  unfold pause
  rw [if_neg (by simp [hinit])]
  exact ⟨rfl, rfl, rfl, rfl, rfl⟩

/-- C6 witness: `pause` on an initialized playing instance clears
`startTime` and `isPlaying`. -/
theorem pause_spec_witness :
    ceSyncPlaying.isInitialized = true ∧
    ((pause ceSyncPlaying ceTrDrift).returned.startTime = none ∧
    (pause ceSyncPlaying ceTrDrift).returned.isPlaying = false ∧
    (pause ceSyncPlaying ceTrDrift).sync.currentState.startTime = none ∧
    (pause ceSyncPlaying ceTrDrift).sync.currentState.isPlaying = false ∧
    (pause ceSyncPlaying ceTrDrift).transport.status = EngineStatus.stopped) :=
  ⟨rfl, pause_spec ceSyncPlaying ceTrDrift rfl⟩

/-- C7 counterexample: `setBPM` performs no validation.  The non-positive
input `-5` is stored verbatim in the returned state and applied verbatim
to the engine tempo, outside any supported musical range — refuting the
claim that invalid input is rejected or clamped. -/
theorem setBPM_validation_ce :
    ceSyncInit.isInitialized = true ∧
    (-5 : ℚ) ≤ 0 ∧
    (setBPM (-5) ceSyncInit ceTrStopped).returned.bpm = -5 ∧
    (setBPM (-5) ceSyncInit ceTrStopped).transport.bpm = -5 ∧
    ¬ ((20:ℚ) ≤ (setBPM (-5) ceSyncInit ceTrStopped).returned.bpm ∧
      (setBPM (-5) ceSyncInit ceTrStopped).returned.bpm ≤ 400) := by
  refine ⟨rfl, by norm_num, rfl, rfl, ?_⟩
  intro h
  obtain ⟨h1, _⟩ := h
  rw [show (setBPM (-5) ceSyncInit ceTrStopped).returned.bpm = (-5 : ℚ) from rfl] at h1
  norm_num at h1

/-- C7 (amended): on an initialized instance, `setBPM(bpm)` stores the
argument unchanged — with no validation or clamping — in the returned
state, the instance state, and the engine tempo, and leaves `startTime`
and `isPlaying` untouched; on an uninitialized instance it returns the
current state unchanged. -/
theorem setBPM_spec (b : ℚ) (ts : TimingSync) (tr : Transport)
    (hinit : ts.isInitialized = true) :
    (setBPM b ts tr).returned.bpm = b ∧
    (setBPM b ts tr).sync.currentState.bpm = b ∧
    (setBPM b ts tr).transport.bpm = b ∧
    (setBPM b ts tr).returned.startTime = ts.currentState.startTime ∧
    (setBPM b ts tr).returned.isPlaying = ts.currentState.isPlaying ∧
    (setBPM b ts tr).cmds = [EngineCmd.setBpm b] := by
  unfold setBPM
  rw [if_neg (by simp [hinit])]
  exact ⟨rfl, rfl, rfl, rfl, rfl, rfl⟩

/-- C7 witness: `setBPM (-5)` on an initialized instance stores `-5`
verbatim. -/
theorem setBPM_spec_witness :
    ceSyncInit.isInitialized = true ∧
    ((setBPM (-5) ceSyncInit ceTrStopped).returned.bpm = -5 ∧
    (setBPM (-5) ceSyncInit ceTrStopped).sync.currentState.bpm = -5 ∧
    (setBPM (-5) ceSyncInit ceTrStopped).transport.bpm = -5 ∧
    (setBPM (-5) ceSyncInit ceTrStopped).returned.startTime = ceSyncInit.currentState.startTime ∧
    (setBPM (-5) ceSyncInit ceTrStopped).returned.isPlaying = ceSyncInit.currentState.isPlaying ∧
    (setBPM (-5) ceSyncInit ceTrStopped).cmds = [EngineCmd.setBpm (-5)]) :=
  ⟨rfl, setBPM_spec (-5) ceSyncInit ceTrStopped rfl⟩

/-- C8: the transport-state invariant `isPlaying = true ↔ startTime ≠ null`
holds for the initial state and is preserved by `play`, `pause` and
`setBPM` (both in the returned snapshot and in the stored state), and by
`syncFromRemote` whenever the supplied remote state itself satisfies the
invariant. -/
theorem transportInv_preserved (now b : ℚ) (state : TransportSyncState)
    (ts : TimingSync) (tr : Transport)
    (h : transportInv ts.currentState) (hr : transportInv state) :
    transportInv initialTimingSync.currentState ∧
    transportInv (play now ts tr).returned ∧
    transportInv (play now ts tr).sync.currentState ∧
    transportInv (pause ts tr).returned ∧
    transportInv (pause ts tr).sync.currentState ∧
    transportInv (setBPM b ts tr).returned ∧
    transportInv (setBPM b ts tr).sync.currentState ∧
    transportInv (syncFromRemote now state ts tr).sync.currentState := by
  by_cases hI : ts.isInitialized = false
  · refine ⟨by decide, ?_, ?_, ?_, ?_, ?_, ?_, ?_⟩ <;>
      first
        | (unfold play; rw [if_pos hI]; exact h)
        | (unfold pause; rw [if_pos hI]; exact h)
        | (unfold setBPM; rw [if_pos hI]; exact h)
        | (unfold syncFromRemote; rw [if_pos hI]; exact h)
  · refine ⟨by decide, ?_, ?_, ?_, ?_, ?_, ?_, ?_⟩
    · unfold play; rw [if_neg hI]
      by_cases hp : ts.currentState.isPlaying
      · rw [if_pos hp]; exact h
      · rw [if_neg hp]; simp [transportInv]
    · unfold play; rw [if_neg hI]
      by_cases hp : ts.currentState.isPlaying
      · rw [if_pos hp]; exact h
      · rw [if_neg hp]; simp [transportInv]
    · unfold pause; rw [if_neg hI]; simp [transportInv]
    · unfold pause; rw [if_neg hI]; simp [transportInv]
    · unfold setBPM; rw [if_neg hI]
      simpa [transportInv] using h
    · unfold setBPM; rw [if_neg hI]
      simpa [transportInv] using h
    · unfold syncFromRemote; rw [if_neg hI]
      dsimp only
      split_ifs <;> exact hr

/-- C8 witness: the invariant theorem instantiated at an initialized idle
instance and a remote state `{startTime: 7, isPlaying: true}`, both of
which satisfy the invariant. -/
theorem transportInv_preserved_witness :
    transportInv ceSyncInit.currentState ∧
    transportInv (⟨some 7, 120, true⟩ : TransportSyncState) ∧
    (transportInv initialTimingSync.currentState ∧
    transportInv (play 5 ceSyncInit ceTrStopped).returned ∧
    transportInv (play 5 ceSyncInit ceTrStopped).sync.currentState ∧
    transportInv (pause ceSyncInit ceTrStopped).returned ∧
    transportInv (pause ceSyncInit ceTrStopped).sync.currentState ∧
    transportInv (setBPM 130 ceSyncInit ceTrStopped).returned ∧
    transportInv (setBPM 130 ceSyncInit ceTrStopped).sync.currentState ∧
    transportInv (syncFromRemote 5 ⟨some 7, 120, true⟩ ceSyncInit ceTrStopped).sync.currentState) :=
  ⟨by decide, by decide,
    transportInv_preserved 5 130 ⟨some 7, 120, true⟩ ceSyncInit ceTrStopped
      (by decide) (by decide)⟩

/-! Association lists with JavaScript `Map`/object semantics: `setAL`
replaces the value of an existing key in place and otherwise appends,
`eraseKeyAL` removes the entry of a key, `lookupAL` finds the first
entry of a key. -/

/-- Lookup of the first entry with the given key. -/
def lookupAL {α β : Type} [DecidableEq α] : List (α × β) → α → Option β
  | [], _ => none
  | e :: es, k => if e.1 = k then some e.2 else lookupAL es k

/-- JS `map.set` / `obj[k] = v`: replace in place or append. -/
def setAL {α β : Type} [DecidableEq α] : List (α × β) → α → β → List (α × β)
  | [], k, v => [(k, v)]
  | e :: es, k, v => if e.1 = k then (k, v) :: es else e :: setAL es k v

/-- JS `map.delete` / `delete obj[k]`: drop the entry with the key. -/
def eraseKeyAL {α β : Type} [DecidableEq α] : List (α × β) → α → List (α × β)
  | [], _ => []
  | e :: es, k => if e.1 = k then es else e :: eraseKeyAL es k

theorem lookupAL_setAL_self {α β : Type} [DecidableEq α] (m : List (α × β)) (k : α) (v : β) :
    lookupAL (setAL m k v) k = some v := by
  induction m with
  | nil => simp [setAL, lookupAL]
  | cons e es ih =>
    by_cases h : e.1 = k
    · simp [setAL, h, lookupAL]
    · simp [setAL, h, lookupAL, ih]

theorem lookupAL_setAL_ne {α β : Type} [DecidableEq α] (m : List (α × β)) (k k' : α) (v : β)
    (h : k' ≠ k) : lookupAL (setAL m k v) k' = lookupAL m k' := by
  have hkk : ¬ (k = k') := fun hc => h hc.symm
  induction m with
  | nil => simp [setAL, lookupAL, hkk]
  | cons e es ih =>
    by_cases he : e.1 = k
    · have he' : ¬ (e.1 = k') := by rw [he]; exact hkk
      simp only [setAL, if_pos he, lookupAL, if_neg hkk, if_neg he']
    · by_cases he' : e.1 = k'
      · simp only [setAL, if_neg he, lookupAL, if_pos he']
      · simp only [setAL, if_neg he, lookupAL, if_neg he']
        exact ih

theorem mem_setAL {α β : Type} [DecidableEq α] (m : List (α × β)) (k : α) (v : β)
    (e : α × β) (h : e ∈ setAL m k v) : e = (k, v) ∨ e ∈ m := by
  induction m with
  | nil => simpa [setAL] using h
  | cons f fs ih =>
    by_cases hf : f.1 = k
    · rcases (by simpa [setAL, hf] using h) with h1 | h1
      · exact Or.inl h1
      · exact Or.inr (List.mem_cons_of_mem _ h1)
    · rcases (by simpa [setAL, hf] using h) with h1 | h1
      · exact Or.inr (by simp [h1])
      · rcases ih h1 with h2 | h2
        · exact Or.inl h2
        · exact Or.inr (List.mem_cons_of_mem _ h2)

theorem mem_eraseKeyAL {α β : Type} [DecidableEq α] (m : List (α × β)) (k : α)
    (e : α × β) (h : e ∈ eraseKeyAL m k) : e ∈ m := by
  induction m with
  | nil => simp [eraseKeyAL] at h
  | cons f fs ih =>
    by_cases hf : f.1 = k
    · exact List.mem_cons_of_mem _ (by simpa [eraseKeyAL, hf] using h)
    · rcases (by simpa [eraseKeyAL, hf] using h) with h1 | h1
      · exact by simp [h1]
      · exact List.mem_cons_of_mem _ (ih h1)

theorem lookupAL_mem {α β : Type} [DecidableEq α] (m : List ( α × β)) (k : α) (v : β)
    (h : lookupAL m k = some v) : (k, v) ∈ m := by
  induction m with
  | nil => simp [lookupAL] at h
  | cons f fs ih =>
    by_cases hf : f.1 = k
    · have hv : f.2 = v := by simpa [lookupAL, hf] using h
      have hkv : (k, v) = f := by rw [← hf, ← hv]
      rw [hkv]
      exact List.mem_cons_self f fs
    · exact List.mem_cons_of_mem _ (ih (by simpa [lookupAL, hf] using h))

/-! The shared Automerge document (`useAutomergeDoc.ts`). -/

/-- Geometry payloads produced by `getCoordinates`: circles and circle
markers carry a center and radius, rectangles and polygons a ring of
lat/lng pairs, markers a single lat/lng. -/
inductive Coords where
  | center (lat lng radius : ℚ)
  | ring (pts : List (ℚ × ℚ))
  | point (lat lng : ℚ)
deriving DecidableEq

/-- A `SyncedShape` record of the shared document (`automergeTypes`). -/
structure SyncedShape where
  id : String
  type : String
  coordinates : Coords
  soundId : Option String
  createdBy : String
  createdAt : ℤ
deriving DecidableEq

/-- The part of the shared `GPSoundDoc` the shape operations touch: the
`shapes` map, which is absent (`undefined`) until first initialized.
The `users` and `transport` fields are not read or written by the shape
operations and are omitted. -/
structure GPSoundDoc where
  shapes : Option (List (String × SyncedShape))
deriving DecidableEq

/-- Lookup of a shape record by id (`doc.shapes?.[shapeId]`). -/
def lookupShape (d : GPSoundDoc) (shapeId : String) : Option SyncedShape :=
  match d.shapes with
  | none => none
  | some m => lookupAL m shapeId

/-- Embedding of `addShape(type, coordinates, soundId)`.  The fresh id is
minted as `shape-${Date.now()}-${randomSuffix}` before the availability
check; `avail` models `changeDoc` being available, `nowId` the clock read
used for the id and `nowCreated` the clock read used for `createdAt`.
When available, the record is stored under the minted id (initializing
the `shapes` map if absent) and the id is returned either way. -/
def addShape (avail : Bool) (userId : String) (nowId nowCreated : ℤ) (rand : String)
    (ty : String) (coordinates : Coords) (soundId : Option String) (d : GPSoundDoc) :
    String × GPSoundDoc :=
  let shapeId := "shape-" ++ toString nowId ++ "-" ++ rand
  if avail = false then (shapeId, d) else
  let m := d.shapes.getD []
  (shapeId,
    { shapes := some (setAL m shapeId
        { id := shapeId, type := ty, coordinates := coordinates, soundId := soundId,
          createdBy := userId, createdAt := nowCreated }) })

/-- Embedding of `updateShapeSound(shapeId, soundId)`: a no-op when
`changeDoc` is unavailable, the `shapes` map is absent, or the id is not
present; otherwise rewrite the record's `soundId` in place. -/
def updateShapeSound (avail : Bool) (shapeId : String) (soundId : Option String)
    (d : GPSoundDoc) : GPSoundDoc :=
  if avail = false then d else
  match d.shapes with
  | none => d
  | some m =>
    match lookupAL m shapeId with
    | none => d
    | some sh => { shapes := some (setAL m shapeId { sh with soundId := soundId }) }

/-- Embedding of `deleteShape(shapeId)`: a no-op when `changeDoc` is
unavailable, the `shapes` map is absent, or the id is not present;
otherwise delete the entry. -/
def deleteShape (avail : Bool) (shapeId : String) (d : GPSoundDoc) : GPSoundDoc :=
  if avail = false then d else
  match d.shapes with
  | none => d
  | some m =>
    match lookupAL m shapeId with
    | none => d
    | some _ => { shapes := some (eraseKeyAL m shapeId) }

/-- Embedding of `clearAllShapes()`: replace the `shapes` map by an empty
map when `changeDoc` is available. -/
def clearAllShapes (avail : Bool) (d : GPSoundDoc) : GPSoundDoc :=
  if avail = false then d else { shapes := some [] }

/-- Every record of the shapes map is stored under its own `id` field. -/
def shapesKeyInv (d : GPSoundDoc) : Prop :=
  ∀ e ∈ d.shapes.getD [], (e : String × SyncedShape).2.id = e.1

/-- C9: for a shape id not present in the shared document's shapes map,
`deleteShape` and `updateShapeSound` leave the document unchanged and
complete (they are total): a stale reference is a no-op, not a failure. -/
theorem staleRef_noop (avail : Bool) (shapeId : String) (soundId : Option String)
    (d : GPSoundDoc) (habs : lookupShape d shapeId = none) :
    deleteShape avail shapeId d = d ∧ updateShapeSound avail shapeId soundId d = d := by
  constructor
  · unfold deleteShape
    cases avail with
    | false => rfl
    | true =>
      rw [if_neg (by simp : ¬ (true = false))]
      cases hd : d.shapes with
      | none => rfl
      | some m =>
        have hl : lookupAL m shapeId = none := by
          unfold lookupShape at habs; rw [hd] at habs; exact habs
        dsimp only
        rw [hl]
  · unfold updateShapeSound
    cases avail with
    | false => rfl
    | true =>
      rw [if_neg (by simp : ¬ (true = false))]
      cases hd : d.shapes with
      | none => rfl
      | some m =>
        have hl : lookupAL m shapeId = none := by
          unfold lookupShape at habs; rw [hd] at habs; exact habs
        dsimp only
        rw [hl]

/-- A one-shape document used to witness the stale-reference claim. -/
def staleDoc : GPSoundDoc :=
  { shapes := some [("a",
      { id := "a", type := "circle", coordinates := Coords.center 1 2 3,
        soundId := none, createdBy := "u", createdAt := 0 })] }

/-- C9 witness: deleting or re-sounding the absent id `b` leaves the
one-shape document untouched. -/
theorem staleRef_noop_witness :
    lookupShape staleDoc "b" = none ∧
    (deleteShape true "b" staleDoc = staleDoc ∧
      updateShapeSound true "b" (some "s") staleDoc = staleDoc) :=
  ⟨rfl, staleRef_noop true "b" (some "s") staleDoc rfl⟩

/-- C10: `addShape` returns the minted id
`shape-${Date.now()}-${randomSuffix}`; when the document is available it
stores under that key a record whose `id` field equals the key, whose
`createdBy` is the calling peer's `userId`, and whose `type`,
`coordinates` and `soundId` equal the arguments, leaving every other key
unchanged; when unavailable the document is untouched.  Consequently the
key-equals-id invariant of the shapes map is preserved by `addShape`, and
also by `updateShapeSound`, `deleteShape` and `clearAllShapes`, so every
record of the shared map ever produced by these operations has its `id`
field equal to its map key. -/
theorem addShape_spec (avail : Bool) (userId : String) (nowId nowCreated : ℤ)
    (rand ty : String) (coords : Coords) (soundId : Option String)
    (shapeId : String) (d : GPSoundDoc) :
    (addShape avail userId nowId nowCreated rand ty coords soundId d).fst =
      "shape-" ++ toString nowId ++ "-" ++ rand ∧
    (avail = true →
      lookupShape (addShape avail userId nowId nowCreated rand ty coords soundId d).snd
          ("shape-" ++ toString nowId ++ "-" ++ rand) =
        some { id := "shape-" ++ toString nowId ++ "-" ++ rand, type := ty,
               coordinates := coords, soundId := soundId, createdBy := userId,
               createdAt := nowCreated } ∧
      (∀ k, k ≠ "shape-" ++ toString nowId ++ "-" ++ rand →
        lookupShape (addShape avail userId nowId nowCreated rand ty coords soundId d).snd k =
          lookupShape d k) ∧
      (shapesKeyInv d →
        shapesKeyInv (addShape avail userId nowId nowCreated rand ty coords soundId d).snd)) ∧
    (avail = false →
      (addShape avail userId nowId nowCreated rand ty coords soundId d).snd = d) ∧
    (shapesKeyInv d → shapesKeyInv (updateShapeSound avail shapeId soundId d)) ∧
    (shapesKeyInv d → shapesKeyInv (deleteShape avail shapeId d)) ∧
    (shapesKeyInv d → shapesKeyInv (clearAllShapes avail d)) := by
  refine ⟨?_, ?_, ?_, ?_, ?_, ?_⟩
  · cases avail with
    | false => rfl
    | true => rfl
  · intro ha
    subst ha
    refine ⟨?_, ?_, ?_⟩
    · unfold addShape lookupShape
      rw [if_neg (by simp : ¬ (true = false))]
      exact lookupAL_setAL_self _ _ _
    · intro k hk
      unfold addShape lookupShape
      rw [if_neg (by simp : ¬ (true = false))]
      cases hd : d.shapes with
      | none =>
        dsimp only
        rw [lookupAL_setAL_ne _ _ _ _ hk]
        rfl
      | some m =>
        dsimp only
        rw [lookupAL_setAL_ne _ _ _ _ hk]
        rfl
    · intro hinv e he
      unfold addShape at he
      rw [if_neg (by simp : ¬ (true = false))] at he
      rcases mem_setAL _ _ _ _ (by simpa using he) with h1 | h1
      · rw [h1]
      · exact hinv e h1
  · intro ha
    subst ha
    rfl
  · intro hinv
    unfold updateShapeSound
    cases avail with
    | false => exact hinv
    | true =>
      rw [if_neg (by simp : ¬ (true = false))]
      cases hd : d.shapes with
      | none => exact hinv
      | some m =>
        dsimp only
        have hm : ∀ f ∈ m, (f : String × SyncedShape).2.id = f.1 := by
          intro f hf
          exact hinv f (by rw [hd]; exact hf)
        cases hlk : lookupAL m shapeId with
        | none => exact hinv
        | some sh =>
          intro e he
          rcases mem_setAL _ _ _ _ (by simpa using he) with h1 | h1
          · have hsh : sh.id = shapeId := hm (shapeId, sh) (lookupAL_mem _ _ _ hlk)
            rw [h1]
            exact hsh
          · exact hm e h1
  · intro hinv
    unfold deleteShape
    cases avail with
    | false => exact hinv
    | true =>
      rw [if_neg (by simp : ¬ (true = false))]
      cases hd : d.shapes with
      | none => exact hinv
      | some m =>
        dsimp only
        cases hlk : lookupAL m shapeId with
        | none => exact hinv
        | some sh =>
          intro e he
          exact hinv e (by rw [hd]; exact mem_eraseKeyAL _ _ _ (by simpa using he))
  · intro hinv
    unfold clearAllShapes
    cases avail with
    | false => exact hinv
    | true =>
      rw [if_neg (by simp : ¬ (true = false))]
      intro e he
      simp at he

/-- C10 witness: a concrete `addShape` call on the empty document returns
the minted id `shape-7-ab` and stores the record under that key with
matching fields. -/
theorem addShape_spec_witness :
    (addShape true "user1" 7 8 "ab" "circle" (Coords.center 1 2 3) none
        { shapes := none }).fst = "shape-" ++ toString (7:ℤ) ++ "-" ++ "ab" ∧
    lookupShape (addShape true "user1" 7 8 "ab" "circle" (Coords.center 1 2 3) none
        { shapes := none }).snd ("shape-" ++ toString (7:ℤ) ++ "-" ++ "ab") =
      some { id := "shape-" ++ toString (7:ℤ) ++ "-" ++ "ab", type := "circle",
             coordinates := Coords.center 1 2 3, soundId := none, createdBy := "user1",
             createdAt := 8 } :=
  ⟨(addShape_spec true "user1" 7 8 "ab" "circle" (Coords.center 1 2 3) none "x"
      { shapes := none }).1,
    ((addShape_spec true "user1" 7 8 "ab" "circle" (Coords.center 1 2 3) none "x"
      { shapes := none }).2.1 rfl).1⟩

/-! The `DrawMapZones` zone reconciler.  Leaflet layers are identified by
their `L.stamp` handle, modelled as naturals drawn from a counter
`nextHandle`; the local geometry shadow (`drawnShapes` plus
`shapeMetadataRef`, keyed by the layer's stamp) is the `shadow` list. -/

/-- Local reconciliation state of a peer: the rendered layers of the
`drawnItems` feature group, the bidirectional sync-id/layer maps, the
processed and pending id sets, the geometry shadow, and the stamp
counter. -/
structure ReconcilerState where
  drawnItems : List ℕ
  syncIdToLayer : List (String × ℕ)
  layerToSyncId : List (ℕ × String)
  processed : List String
  pending : List String
  shadow : List ℕ
  nextHandle : ℕ
deriving DecidableEq

/-- The planar-geometry classes produced by `flattenShape`. -/
inductive FlatShape where
  | pt
  | circ
  | poly
deriving DecidableEq

/-- `flattenShape`'s switch on the shape type: markers become points,
circles and circle markers become `Flatten.Circle`, rectangles and
polygons become `Flatten.Polygon`; every other type throws (`none`). -/
def flattenShapeKind : String → Option FlatShape
  | "marker" => some FlatShape.pt
  | "circle" => some FlatShape.circ
  | "circlemarker" => some FlatShape.circ
  | "rectangle" => some FlatShape.poly
  | "polygon" => some FlatShape.poly
  | _ => none

/-- The `instanceof Flatten.Circle || instanceof Flatten.Polygon` test
guarding the geometry-shadow insertion. -/
def isAreaShape (ty : String) : Bool :=
  match flattenShapeKind ty with
  | some FlatShape.circ => true
  | some FlatShape.poly => true
  | _ => false

/-- The sync-shapes effect's `switch (syncedShape.type)` builds a Leaflet
layer exactly for these four types. -/
def buildsLayer (ty : String) : Bool :=
  ty = "circle" || ty = "rectangle" || ty = "polygon" || ty = "circlemarker"

/-- Embedding of the `L.Draw.Event.CREATED` handler: skip markers;
otherwise stamp a fresh layer, add it to the feature group, record both
id/layer mappings, add the id to the processed set and to the
pending-creation set, and add a geometry-shadow entry when the flattened
shape is a circle or polygon.  `syncId` is the id minted by `addShape`. -/
def createdHandler (ty syncId : String) (s : ReconcilerState) : ReconcilerState :=
  if ty = "marker" then s else
  let layer := s.nextHandle
  { drawnItems := layer :: s.drawnItems
    syncIdToLayer := setAL s.syncIdToLayer syncId layer
    layerToSyncId := setAL s.layerToSyncId layer syncId
    processed := s.processed.insert syncId
    pending := s.pending.insert syncId
    shadow := if isAreaShape ty then layer :: s.shadow else s.shadow
    nextHandle := s.nextHandle + 1 }

/-- One iteration of the sync-shapes effect's `syncedShapes.forEach`:
confirm a pending local creation (drop it from the pending set), skip ids
already processed, and otherwise render the remote shape — stamp a fresh
layer, record the mappings, mark processed, and add a geometry-shadow
entry for circle/polygon flattenings. -/
def processOne (s : ReconcilerState) (r : SyncedShape) : ReconcilerState :=
  let s0 := { s with pending := s.pending.erase r.id }
  if r.id ∈ s0.processed then s0
  else if buildsLayer r.type then
    let layer := s0.nextHandle
    { drawnItems := layer :: s0.drawnItems
      syncIdToLayer := setAL s0.syncIdToLayer r.id layer
      layerToSyncId := setAL s0.layerToSyncId layer r.id
      processed := r.id :: s0.processed
      pending := s0.pending
      shadow := if isAreaShape r.type then layer :: s0.shadow else s0.shadow
      nextHandle := s0.nextHandle + 1 }
  else s0

/-- The first loop of the sync-shapes effect over the snapshot. -/
def processSnapshot (snapshot : List SyncedShape) (s : ReconcilerState) : ReconcilerState :=
  snapshot.foldl processOne s

/-- One iteration of the remote-deletion loop: an entry `(syncId, layer)`
of the id→layer map is removed — layer dropped from the feature group,
both mappings deleted, id dropped from the processed set, shadow entry
removed — only when `syncId` is neither in the snapshot's id set nor in
the pending-creation set. -/
def removeOne (ids : List String) (s : ReconcilerState) (e : String × ℕ) : ReconcilerState :=
  if e.1 ∈ ids ∨ e.1 ∈ s.pending then s
  else
    { drawnItems := s.drawnItems.erase e.2
      syncIdToLayer := eraseKeyAL s.syncIdToLayer e.1
      layerToSyncId := eraseKeyAL s.layerToSyncId e.2
      processed := s.processed.erase e.1
      pending := s.pending
      shadow := s.shadow.erase e.2
      nextHandle := s.nextHandle }

/-- The second loop of the sync-shapes effect (`for (const [syncId, layer]
of syncIdToLayerRef.current.entries())`), folded over the entry list the
loop iterates. -/
def removeDeleted (ids : List String) (s : ReconcilerState) : ReconcilerState :=
  s.syncIdToLayer.foldl (removeOne ids) s

/-- The whole sync-shapes effect: process the snapshot, then run the
remote-deletion loop against the snapshot's id set (`currentSyncIds`). -/
def syncShapesEffect (snapshot : List SyncedShape) (s : ReconcilerState) : ReconcilerState :=
  removeDeleted (snapshot.map SyncedShape.id) (processSnapshot snapshot s)

/-- Number of rendered layers bound to a sync id: entries of the
layer→id map pointing at the id whose layer is in the feature group. -/
def renderCount (s : ReconcilerState) (i : String) : ℕ :=
  ((s.layerToSyncId.filter (fun e => decide (e.2 = i))).filter
    (fun e => decide (e.1 ∈ s.drawnItems))).length

/-- Number of geometry-shadow entries bound to a sync id (a shadow entry
is keyed by its layer's stamp). -/
def shadowCount (s : ReconcilerState) (i : String) : ℕ :=
  (s.shadow.filter (fun l => decide (lookupAL s.layerToSyncId l = some i))).length

/-- Well-formedness of the reconciler's bookkeeping: layer stamps are
unique and below the stamp counter, and every mapped id has been
processed. -/
structure ReconWf (s : ReconcilerState) : Prop where
  valNodup : (s.syncIdToLayer.map Prod.snd).Nodup
  valLt : ∀ l ∈ s.syncIdToLayer.map Prod.snd, l < s.nextHandle
  keyLt : ∀ l ∈ s.layerToSyncId.map Prod.fst, l < s.nextHandle
  keysProc : ∀ k ∈ s.syncIdToLayer.map Prod.fst, k ∈ s.processed
  drawnLt : ∀ l ∈ s.drawnItems, l < s.nextHandle
  shadowLt : ∀ l ∈ s.shadow, l < s.nextHandle

theorem lookupAL_eraseKeyAL_ne {α β : Type} [DecidableEq α] (m : List (α × β)) (k0 k : α)
    (h : k ≠ k0) : lookupAL (eraseKeyAL m k0) k = lookupAL m k := by
  induction m with
  | nil => rfl
  | cons e es ih =>
    by_cases he : e.1 = k0
    · have he' : ¬ (e.1 = k) := by rw [he]; exact fun hc => h hc.symm
      simp only [eraseKeyAL, if_pos he, lookupAL, if_neg he']
    · by_cases he' : e.1 = k
      · simp only [eraseKeyAL, if_neg he, lookupAL, if_pos he']
      · simp only [eraseKeyAL, if_neg he, lookupAL, if_neg he']
        exact ih

theorem lookupAL_append_left {α β : Type} [DecidableEq α] (m1 m2 : List (α × β)) (k : α)
    (v : β) (h : lookupAL m1 k = some v) : lookupAL (m1 ++ m2) k = some v := by
  induction m1 with
  | nil => simp [lookupAL] at h
  | cons e es ih =>
    by_cases he : e.1 = k
    · simp only [lookupAL, if_pos he] at h
      simp only [List.cons_append, lookupAL, if_pos he, h]
    · simp only [lookupAL, if_neg he] at h
      simp only [List.cons_append, lookupAL, if_neg he]
      exact ih h

theorem lookupAL_append_right {α β : Type} [DecidableEq α] (m1 m2 : List (α × β)) (k : α)
    (h : lookupAL m1 k = none) : lookupAL (m1 ++ m2) k = lookupAL m2 k := by
  induction m1 with
  | nil => rfl
  | cons e es ih =>
    by_cases he : e.1 = k
    · simp [lookupAL, if_pos he] at h
    · simp only [lookupAL, if_neg he] at h
      simp only [List.cons_append, lookupAL, if_neg he]
      exact ih h

theorem lookupAL_eq_none {α β : Type} [DecidableEq α] (m : List (α × β)) (k : α)
    (h : k ∉ m.map Prod.fst) : lookupAL m k = none := by
  induction m with
  | nil => rfl
  | cons e es ih =>
    have h1 : ¬ (e.1 = k) := fun hc => h (by simp [hc])
    simp only [lookupAL, if_neg h1]
    exact ih (fun hc => h (by simp; right; simpa using hc))

theorem setAL_append {α β : Type} [DecidableEq α] (m : List (α × β)) (k : α) (v : β)
    (h : k ∉ m.map Prod.fst) : setAL m k v = m ++ [(k, v)] := by
  induction m with
  | nil => rfl
  | cons e es ih =>
    have h1 : ¬ (e.1 = k) := fun hc => h (by simp [hc])
    simp only [setAL, if_neg h1, List.cons_append, List.cons.injEq, true_and]
    exact ih (fun hc => h (by simp; right; simpa using hc))

theorem snd_nodup_unique {α β : Type} (m : List (α × β)) (h : (m.map Prod.snd).Nodup)
    (k1 k2 : α) (v : β) (h1 : (k1, v) ∈ m) (h2 : (k2, v) ∈ m) : k1 = k2 := by
  induction m with
  | nil => simp at h1
  | cons e es ih =>
    simp only [List.map_cons, List.nodup_cons] at h
    rcases List.mem_cons.mp h1 with ha | ha <;> rcases List.mem_cons.mp h2 with hb | hb
    · exact congrArg Prod.fst (ha.trans hb.symm)
    · exfalso
      have hev : e.2 = v := by rw [← ha]
      exact h.1 (by rw [hev]; exact (List.mem_map).mpr ⟨(k2, v), hb, rfl⟩)
    · exfalso
      have hev : e.2 = v := by rw [← hb]
      exact h.1 (by rw [hev]; exact (List.mem_map).mpr ⟨(k1, v), ha, rfl⟩)
    · exact ih h.2 ha hb

theorem filter_eraseKeyAL {α β : Type} [DecidableEq α] (m : List (α × β)) (k : α)
    (p : α × β → Bool) (hp : ∀ j : β, (k, j) ∈ m → p (k, j) = false) :
    (eraseKeyAL m k).filter p = m.filter p := by
  induction m with
  | nil => rfl
  | cons e es ih =>
    by_cases he : e.1 = k
    · have hek : e = (k, e.2) := by rw [← he]
      have hpe : p e = false := by rw [hek]; exact hp e.2 (by rw [← hek]; exact List.mem_cons_self e es)
      simp only [eraseKeyAL, if_pos he, List.filter_cons, hpe]
      simp
    · simp only [eraseKeyAL, if_neg he, List.filter_cons]
      rw [ih (fun j hj => hp j (List.mem_cons_of_mem e hj))]

theorem processOne_pending (s : ReconcilerState) (r : SyncedShape) :
    (processOne s r).pending = s.pending.erase r.id := by
  unfold processOne
  dsimp only
  split_ifs <;> rfl

theorem processOne_processed_mono (s : ReconcilerState) (r : SyncedShape) (i : String)
    (hi : i ∈ s.processed) : i ∈ (processOne s r).processed := by
  unfold processOne
  dsimp only
  split_ifs
  · exact hi
  · show i ∈ r.id :: s.processed
    exact List.mem_cons_of_mem _ hi
  · show i ∈ r.id :: s.processed
    exact List.mem_cons_of_mem _ hi
  · exact hi

theorem pending_survives (snapshot : List SyncedShape) :
    ∀ (s : ReconcilerState) (i : String), i ∈ s.pending →
      i ∈ snapshot.map SyncedShape.id ∨ i ∈ (processSnapshot snapshot s).pending := by
  induction snapshot with
  | nil => intro s i hi; right; exact hi
  | cons r rs ih =>
    intro s i hi
    by_cases hri : r.id = i
    · left; simp [hri]
    · have hi' : i ∈ (processOne s r).pending := by
        rw [processOne_pending]
        exact (List.mem_erase_of_ne (fun hc => hri hc.symm)).mpr hi
      rcases ih (processOne s r) i hi' with h | h
      · left; exact List.mem_cons_of_mem _ h
      · right; exact h

theorem reconWf_render (s : ReconcilerState) (rid : String) (p pr : List String)
    (sh : List ℕ) (hw : ReconWf s) (hP : rid ∉ s.syncIdToLayer.map Prod.fst)
    (hpr : ∀ k ∈ s.processed, k ∈ pr) (hprid : rid ∈ pr)
    (hsh : sh = s.shadow ∨ sh = s.nextHandle :: s.shadow) :
    ReconWf { drawnItems := s.nextHandle :: s.drawnItems
              syncIdToLayer := setAL s.syncIdToLayer rid s.nextHandle
              layerToSyncId := setAL s.layerToSyncId s.nextHandle rid
              processed := pr
              pending := p
              shadow := sh
              nextHandle := s.nextHandle + 1 } := by
  have hset : setAL s.syncIdToLayer rid s.nextHandle =
      s.syncIdToLayer ++ [(rid, s.nextHandle)] := setAL_append _ _ _ hP
  have hl2snotin : s.nextHandle ∉ s.layerToSyncId.map Prod.fst :=
    fun hc => lt_irrefl _ (hw.keyLt _ hc)
  have hset2 : setAL s.layerToSyncId s.nextHandle rid =
      s.layerToSyncId ++ [(s.nextHandle, rid)] := setAL_append _ _ _ hl2snotin
  refine ⟨?_, ?_, ?_, ?_, ?_, ?_⟩
  · show ((setAL s.syncIdToLayer rid s.nextHandle).map Prod.snd).Nodup
    rw [hset]
    simp only [List.map_append]
    rw [List.nodup_append]
    refine ⟨hw.valNodup, List.nodup_singleton _, ?_⟩
    intro a ha hb
    simp at hb
    rw [hb] at ha
    exact lt_irrefl _ (hw.valLt _ ha)
  · show ∀ l ∈ (setAL s.syncIdToLayer rid s.nextHandle).map Prod.snd, l < s.nextHandle + 1
    rw [hset]
    simp only [List.map_append, List.mem_append]
    rintro l (h | h)
    · exact Nat.lt_succ_of_lt (hw.valLt _ h)
    · simp at h
      rw [h]
      exact Nat.lt_succ_self _
  · show ∀ l ∈ (setAL s.layerToSyncId s.nextHandle rid).map Prod.fst, l < s.nextHandle + 1
    rw [hset2]
    simp only [List.map_append, List.mem_append]
    rintro l (h | h)
    · exact Nat.lt_succ_of_lt (hw.keyLt _ h)
    · simp at h
      rw [h]
      exact Nat.lt_succ_self _
  · show ∀ k ∈ (setAL s.syncIdToLayer rid s.nextHandle).map Prod.fst, k ∈ pr
    rw [hset]
    simp only [List.map_append, List.mem_append]
    rintro k (h | h)
    · exact hpr _ (hw.keysProc _ h)
    · simp at h
      rw [h]
      exact hprid
  · intro l hl
    rcases List.mem_cons.mp hl with h | h
    · rw [h]; exact Nat.lt_succ_self _
    · exact Nat.lt_succ_of_lt (hw.drawnLt _ h)
  · intro l hl
    rcases hsh with hs | hs
    · rw [hs] at hl
      exact Nat.lt_succ_of_lt (hw.shadowLt _ hl)
    · rw [hs] at hl
      rcases List.mem_cons.mp hl with h | h
      · rw [h]; exact Nat.lt_succ_self _
      · exact Nat.lt_succ_of_lt (hw.shadowLt _ h)

theorem reconWf_processOne (s : ReconcilerState) (r : SyncedShape) (hw : ReconWf s) :
    ReconWf (processOne s r) := by
  unfold processOne
  dsimp only
  split_ifs with h1 h2 harea
  · exact ⟨hw.valNodup, hw.valLt, hw.keyLt, hw.keysProc, hw.drawnLt, hw.shadowLt⟩
  · exact reconWf_render s r.id _ _ _ hw (fun hc => h1 (hw.keysProc _ hc))
      (fun k hk => List.mem_cons_of_mem _ hk) (List.mem_cons_self _ _) (Or.inr rfl)
  · exact reconWf_render s r.id _ _ _ hw (fun hc => h1 (hw.keysProc _ hc))
      (fun k hk => List.mem_cons_of_mem _ hk) (List.mem_cons_self _ _) (Or.inl rfl)
  · exact ⟨hw.valNodup, hw.valLt, hw.keyLt, hw.keysProc, hw.drawnLt, hw.shadowLt⟩

theorem reconWf_processSnapshot (snapshot : List SyncedShape) :
    ∀ s : ReconcilerState, ReconWf s → ReconWf (processSnapshot snapshot s) := by
  induction snapshot with
  | nil => intro s hw; exact hw
  | cons r rs ih => intro s hw; exact ih (processOne s r) (reconWf_processOne s r hw)

theorem reconWf_createdHandler (ty syncId : String) (s : ReconcilerState)
    (hw : ReconWf s) (hP : syncId ∉ s.processed) : ReconWf (createdHandler ty syncId s) := by
  unfold createdHandler
  dsimp only
  split_ifs with h1 harea
  · exact hw
  · exact reconWf_render s syncId _ _ _ hw (fun hc => hP (hw.keysProc _ hc))
      (fun k hk => List.mem_insert_of_mem hk) (List.mem_insert_self _ _) (Or.inr rfl)
  · exact reconWf_render s syncId _ _ _ hw (fun hc => hP (hw.keysProc _ hc))
      (fun k hk => List.mem_insert_of_mem hk) (List.mem_insert_self _ _) (Or.inl rfl)

theorem removeOne_pending (ids : List String) (s : ReconcilerState) (e : String × ℕ) :
    (removeOne ids s e).pending = s.pending := by
  unfold removeOne
  split_ifs <;> rfl

theorem foldRemove_pres (ids : List String) (i : String) (L : ℕ) :
    ∀ (entries : List (String × ℕ)) (s : ReconcilerState),
    (i ∈ ids ∨ i ∈ s.pending) →
    (∀ e ∈ entries, (e : String × ℕ).2 = L → e.1 = i) →
    ((entries.foldl (removeOne ids) s).pending = s.pending ∧
     lookupAL (entries.foldl (removeOne ids) s).syncIdToLayer i =
       lookupAL s.syncIdToLayer i ∧
     lookupAL (entries.foldl (removeOne ids) s).layerToSyncId L =
       lookupAL s.layerToSyncId L ∧
     (entries.foldl (removeOne ids) s).drawnItems.count L = s.drawnItems.count L ∧
     (entries.foldl (removeOne ids) s).shadow.count L = s.shadow.count L ∧
     (s.layerToSyncId.filter (fun f => decide (f.2 = i)) = [(L, i)] →
       (entries.foldl (removeOne ids) s).layerToSyncId.filter (fun f => decide (f.2 = i)) =
         [(L, i)])) := by
  intro entries
  induction entries with
  | nil =>
    intro s hg howner
    exact ⟨rfl, rfl, rfl, rfl, rfl, fun h => h⟩
  | cons e es ih =>
    intro s hg howner
    simp only [List.foldl_cons]
    by_cases hgr : e.1 ∈ ids ∨ e.1 ∈ s.pending
    · have hid : removeOne ids s e = s := by unfold removeOne; rw [if_pos hgr]
      rw [hid]
      exact ih s hg (fun f hf => howner f (List.mem_cons_of_mem _ hf))
    · have hg1 : e.1 ∉ ids := fun h => hgr (Or.inl h)
      have hg2 : e.1 ∉ s.pending := fun h => hgr (Or.inr h)
      have hne : e.1 ≠ i := by
        rcases hg with h | h
        · exact fun hc => hg1 (hc ▸ h)
        · exact fun hc => hg2 (hc ▸ h)
      have hneL : e.2 ≠ L := fun hc => hne (howner e (List.mem_cons_self _ _) hc)
      have hf1 : (removeOne ids s e).syncIdToLayer = eraseKeyAL s.syncIdToLayer e.1 := by
        unfold removeOne; rw [if_neg hgr]
      have hf2 : (removeOne ids s e).layerToSyncId = eraseKeyAL s.layerToSyncId e.2 := by
        unfold removeOne; rw [if_neg hgr]
      have hf3 : (removeOne ids s e).drawnItems = s.drawnItems.erase e.2 := by
        unfold removeOne; rw [if_neg hgr]
      have hf4 : (removeOne ids s e).shadow = s.shadow.erase e.2 := by
        unfold removeOne; rw [if_neg hgr]
      have hg' : i ∈ ids ∨ i ∈ (removeOne ids s e).pending := by
        rw [removeOne_pending]; exact hg
      obtain ⟨ihp, ih1, ih2, ih3, ih4, ih5⟩ :=
        ih (removeOne ids s e) hg' (fun f hf => howner f (List.mem_cons_of_mem _ hf))
      refine ⟨?_, ?_, ?_, ?_, ?_, ?_⟩
      · rw [ihp, removeOne_pending]
      · rw [ih1, hf1]
        exact lookupAL_eraseKeyAL_ne _ _ _ (fun hc => hne hc.symm)
      · rw [ih2, hf2]
        exact lookupAL_eraseKeyAL_ne _ _ _ (fun hc => hneL hc.symm)
      · rw [ih3, hf3]
        exact List.count_erase_of_ne (fun hc => hneL hc.symm) _
      · rw [ih4, hf4]
        exact List.count_erase_of_ne (fun hc => hneL hc.symm) _
      · intro hflt
        refine ih5 ?_
        rw [hf2]
        rw [filter_eraseKeyAL _ _ _ ?_]
        · exact hflt
        · intro j hj
          by_cases hji : j = i
          · exfalso
            have hmem : (e.2, j) ∈ s.layerToSyncId.filter (fun f => decide (f.2 = i)) := by
              rw [List.mem_filter]
              exact ⟨hj, by simp [hji]⟩
            rw [hflt] at hmem
            simp at hmem
            exact hneL hmem.1
          · simp [hji]

theorem owner_of_nodup (s : ReconcilerState)
    (hnd : (s.syncIdToLayer.map Prod.snd).Nodup) (i : String) (L : ℕ)
    (hl : lookupAL s.syncIdToLayer i = some L) :
    ∀ e ∈ s.syncIdToLayer, (e : String × ℕ).2 = L → e.1 = i := by
  intro e he h2
  have h1 : (i, L) ∈ s.syncIdToLayer := lookupAL_mem _ _ _ hl
  have he' : (e.1, L) ∈ s.syncIdToLayer := by rw [← h2]; exact he
  exact snd_nodup_unique _ hnd e.1 i L he' h1

/-- C3: the pending-creation guard of the remote-deletion loop.  For any
reconciliation pass over a snapshot and any id in the pending-creation
set before the pass, the remote-deletion loop removes nothing belonging
to that id — its id→layer mapping, and (for whatever layer that mapping
designates after the first loop) its layer→id mapping, its presence in
the feature group, and its geometry-shadow entries all survive the
deletion loop unchanged, even when the snapshot omits the id. -/
theorem pendingGuard_correct (s : ReconcilerState) (snapshot : List SyncedShape)
    (i : String) (hw : ReconWf s) (hp : i ∈ s.pending) :
    lookupAL (syncShapesEffect snapshot s).syncIdToLayer i =
      lookupAL (processSnapshot snapshot s).syncIdToLayer i ∧
    (∀ L : ℕ, lookupAL (processSnapshot snapshot s).syncIdToLayer i = some L →
      lookupAL (syncShapesEffect snapshot s).layerToSyncId L =
        lookupAL (processSnapshot snapshot s).layerToSyncId L ∧
      (syncShapesEffect snapshot s).drawnItems.count L =
        (processSnapshot snapshot s).drawnItems.count L ∧
      (syncShapesEffect snapshot s).shadow.count L =
        (processSnapshot snapshot s).shadow.count L) := by
  have hw1 : ReconWf (processSnapshot snapshot s) := reconWf_processSnapshot snapshot s hw
  have hg : i ∈ snapshot.map SyncedShape.id ∨ i ∈ (processSnapshot snapshot s).pending :=
    pending_survives snapshot s i hp
  have hvac : ∀ e ∈ (processSnapshot snapshot s).syncIdToLayer,
      (e : String × ℕ).2 = (processSnapshot snapshot s).nextHandle → e.1 = i := by
    intro e he h2
    exfalso
    have hlt := hw1.valLt e.2 (List.mem_map.mpr ⟨e, he, rfl⟩)
    rw [h2] at hlt
    exact lt_irrefl _ hlt
  refine ⟨?_, ?_⟩
  · exact (foldRemove_pres (snapshot.map SyncedShape.id) i
      (processSnapshot snapshot s).nextHandle
      (processSnapshot snapshot s).syncIdToLayer (processSnapshot snapshot s) hg hvac).2.1
  · intro L hl
    obtain ⟨_, _, h3, h4, h5, _⟩ := foldRemove_pres (snapshot.map SyncedShape.id) i L
      (processSnapshot snapshot s).syncIdToLayer (processSnapshot snapshot s) hg
      (owner_of_nodup _ hw1.valNodup i L hl)
    exact ⟨h3, h4, h5⟩

/-- A one-zone reconciler state whose zone `z` is rendered and still
pending confirmation. -/
def guardState : ReconcilerState :=
  { drawnItems := [0]
    syncIdToLayer := [("z", 0)]
    layerToSyncId := [(0, "z")]
    processed := ["z"]
    pending := ["z"]
    shadow := [0]
    nextHandle := 1 }

/-- C3 witness: the guard theorem instantiated at `guardState` with the
empty snapshot — a snapshot that omits the pending id `z` — so the
deletion loop still leaves `z`'s mappings, layer and shadow intact. -/
theorem pendingGuard_correct_witness :
    "z" ∈ guardState.pending ∧
    (lookupAL (syncShapesEffect [] guardState).syncIdToLayer "z" =
      lookupAL (processSnapshot [] guardState).syncIdToLayer "z" ∧
    (∀ L : ℕ, lookupAL (processSnapshot [] guardState).syncIdToLayer "z" = some L →
      lookupAL (syncShapesEffect [] guardState).layerToSyncId L =
        lookupAL (processSnapshot [] guardState).layerToSyncId L ∧
      (syncShapesEffect [] guardState).drawnItems.count L =
        (processSnapshot [] guardState).drawnItems.count L ∧
      (syncShapesEffect [] guardState).shadow.count L =
        (processSnapshot [] guardState).shadow.count L)) :=
  ⟨by decide, pendingGuard_correct guardState [] "z"
    ⟨by decide, by decide, by decide, by decide, by decide, by decide⟩ (by decide)⟩

theorem lookupAL_append_singleton_ne {α β : Type} [DecidableEq α] (m : List (α × β))
    (k j : α) (v : β) (h : j ≠ k) :
    lookupAL (m ++ [(k, v)]) j = lookupAL m j := by
  cases hm : lookupAL m j with
  | some w => exact lookupAL_append_left _ _ _ _ hm
  | none =>
    rw [lookupAL_append_right _ _ _ hm]
    simp only [lookupAL]
    rw [if_neg (fun hc : k = j => h hc.symm)]

theorem buildsLayer_props (ty : String) (h : buildsLayer ty = true) :
    ty ≠ "marker" ∧ isAreaShape ty = true := by
  unfold buildsLayer at h
  simp only [Bool.or_eq_true, decide_eq_true_eq] at h
  obtain ((h | h) | h) | h := h <;> subst h <;> exact ⟨by decide, by decide⟩

/-- The single-rendered-zone invariant for zone `i` with layer `L`: `i`
maps to `L` and is the only id mapped to `L`, `(L, i)` is the only
layer→id entry for `i`, and `L` occurs exactly once in the feature group
and exactly once in the geometry shadow. -/
def QInv (i : String) (L : ℕ) (s : ReconcilerState) : Prop :=
  lookupAL s.syncIdToLayer i = some L ∧
  (∀ e ∈ s.syncIdToLayer, (e : String × ℕ).2 = L → e.1 = i) ∧
  s.layerToSyncId.filter (fun f => decide (f.2 = i)) = [(L, i)] ∧
  lookupAL s.layerToSyncId L = some i ∧
  s.drawnItems.count L = 1 ∧
  s.shadow.count L = 1 ∧
  L < s.nextHandle ∧
  i ∈ s.processed

theorem qinv_createdHandler (s : ReconcilerState) (ty i : String)
    (hw : ReconWf s) (hP : i ∉ s.processed)
    (hK : ∀ e ∈ s.layerToSyncId, (e : ℕ × String).2 ≠ i)
    (hty : buildsLayer ty = true) :
    QInv i s.nextHandle (createdHandler ty i s) ∧ i ∈ (createdHandler ty i s).pending := by
  obtain ⟨hm, harea⟩ := buildsLayer_props ty hty
  have hknotin : i ∉ s.syncIdToLayer.map Prod.fst := fun hc => hP (hw.keysProc _ hc)
  have hset : setAL s.syncIdToLayer i s.nextHandle =
      s.syncIdToLayer ++ [(i, s.nextHandle)] := setAL_append _ _ _ hknotin
  have hl2snotin : s.nextHandle ∉ s.layerToSyncId.map Prod.fst :=
    fun hc => lt_irrefl _ (hw.keyLt _ hc)
  have hset2 : setAL s.layerToSyncId s.nextHandle i =
      s.layerToSyncId ++ [(s.nextHandle, i)] := setAL_append _ _ _ hl2snotin
  unfold createdHandler
  dsimp only
  rw [if_neg hm, if_pos harea]
  refine ⟨⟨?_, ?_, ?_, ?_, ?_, ?_, ?_, ?_⟩, ?_⟩
  · exact lookupAL_setAL_self _ _ _
  · intro e he h2
    rcases mem_setAL _ _ _ _ he with h | h
    · rw [h]
    · exfalso
      have hlt := hw.valLt e.2 (List.mem_map.mpr ⟨e, h, rfl⟩)
      rw [h2] at hlt
      exact lt_irrefl _ hlt
  · show (setAL s.layerToSyncId s.nextHandle i).filter (fun f => decide (f.2 = i)) = _
    rw [hset2, List.filter_append]
    rw [List.filter_eq_nil_iff.mpr (fun e he => by simp [hK e he])]
    simp
  · show lookupAL (setAL s.layerToSyncId s.nextHandle i) s.nextHandle = some i
    rw [hset2, lookupAL_append_right _ _ _ (lookupAL_eq_none _ _ hl2snotin)]
    simp [lookupAL]
  · show (s.nextHandle :: s.drawnItems).count s.nextHandle = 1
    rw [List.count_cons_self]
    rw [List.count_eq_zero.mpr (fun hc => lt_irrefl _ (hw.drawnLt _ hc))]
  · show (s.nextHandle :: s.shadow).count s.nextHandle = 1
    rw [List.count_cons_self]
    rw [List.count_eq_zero.mpr (fun hc => lt_irrefl _ (hw.shadowLt _ hc))]
  · exact Nat.lt_succ_self _
  · exact List.mem_insert_self _ _
  · exact List.mem_insert_self _ _

theorem qinv_render (s : ReconcilerState) (rid i : String) (L : ℕ) (p pr : List String)
    (sh : List ℕ) (hw : ReconWf s) (hq : QInv i L s)
    (hrP : rid ∉ s.syncIdToLayer.map Prod.fst) (hri : rid ≠ i) (hpr : i ∈ pr)
    (hsh : sh = s.shadow ∨ sh = s.nextHandle :: s.shadow) :
    QInv i L { drawnItems := s.nextHandle :: s.drawnItems
               syncIdToLayer := setAL s.syncIdToLayer rid s.nextHandle
               layerToSyncId := setAL s.layerToSyncId s.nextHandle rid
               processed := pr
               pending := p
               shadow := sh
               nextHandle := s.nextHandle + 1 } := by
  obtain ⟨q1, q2, q3, q4, q5, q6, q7, q8⟩ := hq
  have hnL : s.nextHandle ≠ L := fun hc => lt_irrefl _ (hc ▸ q7)
  have hset : setAL s.syncIdToLayer rid s.nextHandle =
      s.syncIdToLayer ++ [(rid, s.nextHandle)] := setAL_append _ _ _ hrP
  have hl2snotin : s.nextHandle ∉ s.layerToSyncId.map Prod.fst :=
    fun hc => lt_irrefl _ (hw.keyLt _ hc)
  have hset2 : setAL s.layerToSyncId s.nextHandle rid =
      s.layerToSyncId ++ [(s.nextHandle, rid)] := setAL_append _ _ _ hl2snotin
  refine ⟨?_, ?_, ?_, ?_, ?_, ?_, ?_, ?_⟩
  · show lookupAL (setAL s.syncIdToLayer rid s.nextHandle) i = some L
    rw [hset]
    exact lookupAL_append_left _ _ _ _ q1
  · intro e he h2
    rcases mem_setAL _ _ _ _ he with h | h
    · exfalso
      rw [h] at h2
      exact hnL h2
    · exact q2 e h h2
  · show (setAL s.layerToSyncId s.nextHandle rid).filter (fun f => decide (f.2 = i)) = _
    rw [hset2, List.filter_append, q3]
    simp [hri]
  · show lookupAL (setAL s.layerToSyncId s.nextHandle rid) L = some i
    rw [hset2]
    exact lookupAL_append_left _ _ _ _ q4
  · show (s.nextHandle :: s.drawnItems).count L = 1
    rw [List.count_cons_of_ne (fun hc => hnL hc.symm)]
    exact q5
  · rcases hsh with h | h
    · rw [h]; exact q6
    · rw [h]
      show (s.nextHandle :: s.shadow).count L = 1
      rw [List.count_cons_of_ne (fun hc => hnL hc.symm)]
      exact q6
  · exact Nat.lt_succ_of_lt q7
  · exact hpr

theorem qinv_processOne (s : ReconcilerState) (r : SyncedShape) (i : String) (L : ℕ)
    (hw : ReconWf s) (hq : QInv i L s) : QInv i L (processOne s r) := by
  have hri : r.id ∈ s.processed ∨ r.id ≠ i := by
    by_cases h : r.id ∈ s.processed
    · exact Or.inl h
    · exact Or.inr (fun hc => h (hc ▸ hq.2.2.2.2.2.2.2))
  unfold processOne
  dsimp only
  split_ifs with h1 h2 harea
  · exact hq
  · rcases hri with h | h
    · exact absurd h h1
    · exact qinv_render s r.id i L _ _ _ hw hq (fun hc => h1 (hw.keysProc _ hc)) h
        (List.mem_cons_of_mem _ hq.2.2.2.2.2.2.2) (Or.inr rfl)
  · rcases hri with h | h
    · exact absurd h h1
    · exact qinv_render s r.id i L _ _ _ hw hq (fun hc => h1 (hw.keysProc _ hc)) h
        (List.mem_cons_of_mem _ hq.2.2.2.2.2.2.2) (Or.inl rfl)
  · exact hq

theorem qinv_processSnapshot (snapshot : List SyncedShape) (i : String) (L : ℕ) :
    ∀ s : ReconcilerState, ReconWf s → QInv i L s →
      QInv i L (processSnapshot snapshot s) := by
  induction snapshot with
  | nil => intro s _ hq; exact hq
  | cons r rs ih =>
    intro s hw hq
    exact ih (processOne s r) (reconWf_processOne s r hw) (qinv_processOne s r i L hw hq)

theorem renderData_render (s : ReconcilerState) (rid j : String) (p pr : List String)
    (sh : List ℕ) (hw : ReconWf s) (hrP : rid ∉ s.syncIdToLayer.map Prod.fst)
    (hrj : rid ≠ j) (hsh : sh = s.shadow ∨ sh = s.nextHandle :: s.shadow) :
    lookupAL (setAL s.syncIdToLayer rid s.nextHandle) j = lookupAL s.syncIdToLayer j ∧
    (setAL s.layerToSyncId s.nextHandle rid).filter (fun f => decide (f.2 = j)) =
      s.layerToSyncId.filter (fun f => decide (f.2 = j)) ∧
    renderCount { drawnItems := s.nextHandle :: s.drawnItems
                  syncIdToLayer := setAL s.syncIdToLayer rid s.nextHandle
                  layerToSyncId := setAL s.layerToSyncId s.nextHandle rid
                  processed := pr
                  pending := p
                  shadow := sh
                  nextHandle := s.nextHandle + 1 } j = renderCount s j ∧
    shadowCount { drawnItems := s.nextHandle :: s.drawnItems
                  syncIdToLayer := setAL s.syncIdToLayer rid s.nextHandle
                  layerToSyncId := setAL s.layerToSyncId s.nextHandle rid
                  processed := pr
                  pending := p
                  shadow := sh
                  nextHandle := s.nextHandle + 1 } j = shadowCount s j := by
  have hset : setAL s.syncIdToLayer rid s.nextHandle =
      s.syncIdToLayer ++ [(rid, s.nextHandle)] := setAL_append _ _ _ hrP
  have hl2snotin : s.nextHandle ∉ s.layerToSyncId.map Prod.fst :=
    fun hc => lt_irrefl _ (hw.keyLt _ hc)
  have hset2 : setAL s.layerToSyncId s.nextHandle rid =
      s.layerToSyncId ++ [(s.nextHandle, rid)] := setAL_append _ _ _ hl2snotin
  have hla : lookupAL (setAL s.syncIdToLayer rid s.nextHandle) j =
      lookupAL s.syncIdToLayer j := by
    rw [hset]
    exact lookupAL_append_singleton_ne _ _ _ _ (fun hc => hrj hc.symm)
  have hfb : (setAL s.layerToSyncId s.nextHandle rid).filter (fun f => decide (f.2 = j)) =
      s.layerToSyncId.filter (fun f => decide (f.2 = j)) := by
    rw [hset2, List.filter_append]
    simp [hrj]
  have hlkup : ∀ l : ℕ, l ≠ s.nextHandle →
      lookupAL (setAL s.layerToSyncId s.nextHandle rid) l = lookupAL s.layerToSyncId l := by
    intro l hl
    rw [hset2]
    exact lookupAL_append_singleton_ne _ _ _ _ hl
  refine ⟨hla, hfb, ?_, ?_⟩
  · unfold renderCount
    dsimp only
    rw [hfb]
    apply congrArg List.length
    refine List.filter_congr ?_
    intro e he
    have hel : e ∈ s.layerToSyncId := List.mem_of_mem_filter he
    have hlt : e.1 < s.nextHandle := hw.keyLt _ (List.mem_map.mpr ⟨e, hel, rfl⟩)
    have hne : ¬ (e.1 = s.nextHandle) := fun hc => lt_irrefl _ (hc ▸ hlt)
    rw [decide_eq_decide]
    simp [List.mem_cons, hne]
  · unfold shadowCount
    dsimp only
    have hcongr : ∀ l ∈ s.shadow,
        (decide (lookupAL (setAL s.layerToSyncId s.nextHandle rid) l = some j)) =
        (decide (lookupAL s.layerToSyncId l = some j)) := by
      intro l hl
      have hlt : l < s.nextHandle := hw.shadowLt _ hl
      rw [hlkup l (fun hc => lt_irrefl _ (hc ▸ hlt))]
    rcases hsh with h | h
    · rw [h]
      exact congrArg List.length (List.filter_congr hcongr)
    · rw [h]
      have hq'n : (decide (lookupAL (setAL s.layerToSyncId s.nextHandle rid) s.nextHandle
          = some j)) = false := by
        rw [hset2, lookupAL_append_right _ _ _ (lookupAL_eq_none _ _ hl2snotin)]
        simp [lookupAL, hrj]
      rw [List.filter_cons, hq'n]
      simp only [Bool.false_eq_true, if_false]
      exact congrArg List.length (List.filter_congr hcongr)

theorem renderData_processOne (s : ReconcilerState) (r : SyncedShape) (j : String)
    (hw : ReconWf s) (hj : j ∈ s.processed) :
    lookupAL (processOne s r).syncIdToLayer j = lookupAL s.syncIdToLayer j ∧
    (processOne s r).layerToSyncId.filter (fun f => decide (f.2 = j)) =
      s.layerToSyncId.filter (fun f => decide (f.2 = j)) ∧
    renderCount (processOne s r) j = renderCount s j ∧
    shadowCount (processOne s r) j = shadowCount s j := by
  unfold processOne
  dsimp only
  split_ifs with h1 h2 harea
  · exact ⟨rfl, rfl, rfl, rfl⟩
  · exact renderData_render s r.id j _ _ _ hw (fun hc => h1 (hw.keysProc _ hc))
      (fun hc => h1 (hc ▸ hj)) (Or.inr rfl)
  · exact renderData_render s r.id j _ _ _ hw (fun hc => h1 (hw.keysProc _ hc))
      (fun hc => h1 (hc ▸ hj)) (Or.inl rfl)
  · exact ⟨rfl, rfl, rfl, rfl⟩

theorem renderData_processSnapshot (snap : List SyncedShape) (j : String) :
    ∀ s : ReconcilerState, ReconWf s → j ∈ s.processed →
      lookupAL (processSnapshot snap s).syncIdToLayer j = lookupAL s.syncIdToLayer j ∧
      (processSnapshot snap s).layerToSyncId.filter (fun f => decide (f.2 = j)) =
        s.layerToSyncId.filter (fun f => decide (f.2 = j)) ∧
      renderCount (processSnapshot snap s) j = renderCount s j ∧
      shadowCount (processSnapshot snap s) j = shadowCount s j := by
  induction snap with
  | nil => intro s _ _; exact ⟨rfl, rfl, rfl, rfl⟩
  | cons r rs ih =>
    intro s hw hj
    obtain ⟨a1, a2, a3, a4⟩ := renderData_processOne s r j hw hj
    obtain ⟨b1, b2, b3, b4⟩ := ih (processOne s r) (reconWf_processOne s r hw)
      (processOne_processed_mono s r j hj)
    exact ⟨b1.trans a1, b2.trans a2, b3.trans a3, b4.trans a4⟩

theorem length_filter_eq_count (l : List ℕ) (a : ℕ) :
    (l.filter (fun x => decide (x = a))).length = l.count a := by
  induction l with
  | nil => rfl
  | cons x xs ih =>
    by_cases hx : x = a
    · simp [hx, List.filter_cons, List.count_cons, ih]
    · simp [hx, List.filter_cons, List.count_cons, ih]

theorem counts_from_q (s : ReconcilerState) (i : String) (L : ℕ)
    (h3 : s.layerToSyncId.filter (fun f => decide (f.2 = i)) = [(L, i)])
    (h4 : lookupAL s.layerToSyncId L = some i)
    (h5 : s.drawnItems.count L = 1)
    (h6 : s.shadow.count L = 1) :
    renderCount s i = 1 ∧ shadowCount s i = 1 := by
  have hmem : L ∈ s.drawnItems := by
    have hpos : 0 < s.drawnItems.count L := by rw [h5]; exact Nat.one_pos
    exact List.count_pos_iff.mp hpos
  constructor
  · unfold renderCount
    rw [h3]
    simp [hmem]
  · unfold shadowCount
    have hcongr : ∀ l ∈ s.shadow,
        (decide (lookupAL s.layerToSyncId l = some i)) = (decide (l = L)) := by
      intro l _
      by_cases hl : l = L
      · subst hl
        simp [h4]
      · have hno : lookupAL s.layerToSyncId l ≠ some i := by
          intro hc
          have hm1 : (l, i) ∈ s.layerToSyncId := lookupAL_mem _ _ _ hc
          have hm2 : (l, i) ∈ s.layerToSyncId.filter (fun f => decide (f.2 = i)) :=
            List.mem_filter.mpr ⟨hm1, by simp⟩
          rw [h3] at hm2
          simp at hm2
          exact hl hm2
        simp [hno, hl]
    rw [List.filter_congr hcongr, length_filter_eq_count, h6]

/-- C4: no duplicate zone rendering.  Creating a zone locally (a fresh id
`i` drawn with a drawable type) and then running the sync-shapes effect
on any snapshot — in particular one echoing `i` back — leaves exactly one
render handle and exactly one geometry-shadow entry for `i`.  More
generally, for every id already in the processed set, the snapshot loop
of a reconciliation pass never renders it again: its id→layer mapping,
its layer→id entries, and its render and shadow counts stay unchanged no
matter how often notifications repeat the id. -/
theorem noDuplicateRender (s : ReconcilerState) (i ty : String)
    (snapshot : List SyncedShape) (hw : ReconWf s) (hP : i ∉ s.processed)
    (hK : ∀ e ∈ s.layerToSyncId, (e : ℕ × String).2 ≠ i)
    (hty : buildsLayer ty = true) :
    (renderCount (syncShapesEffect snapshot (createdHandler ty i s)) i = 1 ∧
     shadowCount (syncShapesEffect snapshot (createdHandler ty i s)) i = 1) ∧
    (∀ (s' : ReconcilerState) (j : String) (snap' : List SyncedShape),
      ReconWf s' → j ∈ s'.processed →
      lookupAL (processSnapshot snap' s').syncIdToLayer j = lookupAL s'.syncIdToLayer j ∧
      (processSnapshot snap' s').layerToSyncId.filter (fun f => decide (f.2 = j)) =
        s'.layerToSyncId.filter (fun f => decide (f.2 = j)) ∧
      renderCount (processSnapshot snap' s') j = renderCount s' j ∧
      shadowCount (processSnapshot snap' s') j = shadowCount s' j) := by
  constructor
  · obtain ⟨hq1, hpend1⟩ := qinv_createdHandler s ty i hw hP hK hty
    have hw1 : ReconWf (createdHandler ty i s) := reconWf_createdHandler ty i s hw hP
    have hq2 : QInv i s.nextHandle (processSnapshot snapshot (createdHandler ty i s)) :=
      qinv_processSnapshot snapshot i s.nextHandle _ hw1 hq1
    have hg : i ∈ snapshot.map SyncedShape.id ∨
        i ∈ (processSnapshot snapshot (createdHandler ty i s)).pending :=
      pending_survives snapshot _ i hpend1
    obtain ⟨_, _, p3, p4, p5, p6⟩ := foldRemove_pres (snapshot.map SyncedShape.id) i
      s.nextHandle (processSnapshot snapshot (createdHandler ty i s)).syncIdToLayer
      (processSnapshot snapshot (createdHandler ty i s)) hg hq2.2.1
    exact counts_from_q _ i s.nextHandle (p6 hq2.2.2.1) (p3.trans hq2.2.2.2.1)
      (p4.trans hq2.2.2.2.2.1) (p5.trans hq2.2.2.2.2.2.1)
  · intro s' j snap' hw' hj'
    exact renderData_processSnapshot snap' j s' hw' hj'

/-- The empty reconciler state of a freshly mounted peer. -/
def freshState : ReconcilerState :=
  { drawnItems := []
    syncIdToLayer := []
    layerToSyncId := []
    processed := []
    pending := []
    shadow := []
    nextHandle := 0 }

/-- C4 witness: drawing a circle zone `a` on an empty peer and then
processing a snapshot consisting of its own echo yields exactly one
render handle and one shadow entry for `a`. -/
theorem noDuplicateRender_witness :
    buildsLayer "circle" = true ∧
    "a" ∉ freshState.processed ∧
    (renderCount (syncShapesEffect
        [{ id := "a", type := "circle", coordinates := Coords.center 1 2 3,
           soundId := none, createdBy := "u", createdAt := 0 }]
        (createdHandler "circle" "a" freshState)) "a" = 1 ∧
     shadowCount (syncShapesEffect
        [{ id := "a", type := "circle", coordinates := Coords.center 1 2 3,
           soundId := none, createdBy := "u", createdAt := 0 }]
        (createdHandler "circle" "a" freshState)) "a" = 1) :=
  ⟨by decide, by decide,
    (noDuplicateRender freshState "a" "circle"
      [{ id := "a", type := "circle", coordinates := Coords.center 1 2 3,
         soundId := none, createdBy := "u", createdAt := 0 }]
      ⟨by decide, by decide, by decide, by decide, by decide, by decide⟩
      (by decide) (by decide) (by decide)).1⟩
